import Mathlib

/-!
Shallow embedding of the two-tier file cache in `src/helpers/redis.js`
(class `FileCache`).

Modelling conventions:
- Wall-clock time (`Date.now()`, milliseconds) is passed explicitly as a
  `now : Nat` argument, so behaviour is deterministic.
- The in-memory `Map` (`memoryCache`) is an association list from raw key
  to `CacheItem`; a JS `Map.set` updates an existing binding in place and
  appends a fresh one, which `alistSet` mirrors.
- The cache directory is an association list from normalized file key
  (the `generateCacheKey` image, the `.json` suffix left implicit) to the
  file's content.  `some item` is a well-formed JSON record; `none` is a
  file whose `JSON.parse` (or read) fails, i.e. a corrupt file.
- `fs.writeFile` can fail; `set` takes an explicit `writeOk : Bool`
  deciding whether the write throws.  Read/unlink failures are swallowed
  by the source (`.catch(() => \x7b\x7d)`), so they are not modelled.
- JS values are modelled by `JSValue`, with distinct `null` and
  `undefined` constructors; `get` returns `JSValue.null` on a miss,
  exactly as the source returns the JS literal `null`.
- JS float division in `stats` is modelled by exact rational division.
-/

/-- A JSON-representable JS value, as stored in the cache.  `null` doubles
as the absent-result sentinel returned by `get` on a miss, exactly as in
the source. -/
inductive JSValue where
  | null
  | undef
  | bool (b : Bool)
  | num (n : Int)
  | str (s : String)
  deriving DecidableEq, Repr

/-- The record shape written by `FileCache.set` (redis.js lines 49-54):
`{ value, expiresAt, createdAt, key }`. -/
structure CacheItem where
  value : JSValue
  expiresAt : Nat
  createdAt : Nat
  key : String
  deriving DecidableEq, Repr

/-- Process-lifetime counters (`this.cacheStats`). -/
structure CacheStats where
  hits : Nat
  misses : Nat
  sets : Nat
  deriving DecidableEq, Repr

/-- Lookup in an association list: the value of the first binding of `k`.
Models `Map.get` / a file read keyed by file name. -/
def alistGet (m : List (String × α)) (k : String) : Option α :=
  match m with
  | [] => none
  | (k', v) :: rest => if k' = k then some v else alistGet rest k

/-- Insert-or-replace in an association list: replaces the first binding
of `k` in place, appends when absent.  Models JS `Map.set` and a
whole-file overwrite. -/
def alistSet (m : List (String × α)) (k : String) (v : α) : List (String × α) :=
  match m with
  | [] => [(k, v)]
  | (k', v') :: rest => if k' = k then (k, v) :: rest else (k', v') :: alistSet rest k v

/-- Remove every binding of `k`.  Models JS `Map.delete` and `fs.unlink`. -/
def alistDel (m : List (String × α)) (k : String) : List (String × α) :=
  match m with
  | [] => []
  | (k', v) :: rest => if k' = k then alistDel rest k else (k', v) :: alistDel rest k

/-- Keep only the bindings whose key/value satisfy `p`.  Models an
enumerate-and-delete pass over a `Map` or a directory. -/
def alistFilter (p : String → α → Bool) (m : List (String × α)) : List (String × α) :=
  match m with
  | [] => []
  | (k, v) :: rest =>
    if p k v then (k, v) :: alistFilter p rest else alistFilter p rest

/-- The whole mutable state of a `FileCache` instance.  `maxMemoryItems`
is the configured memory-tier capacity (1000 in the source constructor;
the spec, section 6, admits it as configuration). -/
structure CacheState where
  memoryCache : List (String × CacheItem)
  files : List (String × Option CacheItem)
  stats : CacheStats
  maxMemoryItems : Nat
  deriving DecidableEq, Repr

namespace FileCache

/-- `this.defaultTTL` (seconds). -/
def defaultTTL : Nat := 3600

/-- `this.maxMemoryItems` as hard-coded in the constructor. -/
def defaultMaxMemoryItems : Nat := 1000

/-- `this.cleanupInterval` (milliseconds). -/
def cleanupInterval : Nat := 300000

/-- A freshly constructed cache: empty tiers, zero counters. -/
def initial (maxMemoryItems : Nat) : CacheState :=
  { memoryCache := []
    files := []
    stats := { hits := 0, misses := 0, sets := 0 }
    maxMemoryItems := maxMemoryItems }

/-- Character class of the regex `[^a-zA-Z0-9]` in `generateCacheKey`. -/
def isCacheKeyChar (c : Char) : Bool :=
  (('a' ≤ c && c ≤ 'z') || ('A' ≤ c && c ≤ 'Z') || ('0' ≤ c && c ≤ '9'))

/-- redis.js lines 39-41: replace every character outside `[a-zA-Z0-9]`
with an underscore to obtain the file-name key. -/
def generateCacheKey (key : String) : String :=
  String.mk (key.data.map (fun c => if isCacheKeyChar c then c else '_'))

/-- redis.js lines 44-71.  Builds the cache item, inserts it into the
memory tier when `size < maxMemoryItems`, then writes the file.  The
memory insertion precedes the file write, so when the write throws
(`writeOk = false`) the catch block returns `false` with the memory tier
already updated and `sets` not incremented. -/
def set (s : CacheState) (key : String) (value : JSValue) (ttlSeconds : Nat)
    (now : Nat) (writeOk : Bool) : Bool × CacheState :=
  let cacheKey := generateCacheKey key
  let cacheItem : CacheItem :=
    { value := value, expiresAt := now + ttlSeconds * 1000, createdAt := now, key := key }
  let mem :=
    if s.memoryCache.length < s.maxMemoryItems
    then alistSet s.memoryCache key cacheItem
    else s.memoryCache
  if writeOk then
    (true,
      { s with
        memoryCache := mem
        files := alistSet s.files cacheKey (some cacheItem)
        stats := { s.stats with sets := s.stats.sets + 1 } })
  else
    (false, { s with memoryCache := mem })

/-- redis.js lines 88-112: the file-tier fallback of `get`.  A live file
record repopulates the memory tier when capacity allows and counts a hit;
an expired file record is unlinked and counts a miss; a missing or
corrupt file counts a miss. -/
def getFile (s : CacheState) (key : String) (now : Nat) : JSValue × CacheState :=
  let cacheKey := generateCacheKey key
  match alistGet s.files cacheKey with
  | some (some cacheItem) =>
    if now < cacheItem.expiresAt then
      let mem :=
        if s.memoryCache.length < s.maxMemoryItems
        then alistSet s.memoryCache key cacheItem
        else s.memoryCache
      (cacheItem.value,
        { s with
          memoryCache := mem
          stats := { s.stats with hits := s.stats.hits + 1 } })
    else
      (JSValue.null,
        { s with
          files := alistDel s.files cacheKey
          stats := { s.stats with misses := s.stats.misses + 1 } })
  | some none =>
    (JSValue.null, { s with stats := { s.stats with misses := s.stats.misses + 1 } })
  | none =>
    (JSValue.null, { s with stats := { s.stats with misses := s.stats.misses + 1 } })

/-- redis.js lines 74-118.  Memory tier first: a live entry is a hit; an
expired entry is deleted and control falls through to the file tier. -/
def get (s : CacheState) (key : String) (now : Nat) : JSValue × CacheState :=
  match alistGet s.memoryCache key with
  | some cached =>
    if now < cached.expiresAt then
      (cached.value, { s with stats := { s.stats with hits := s.stats.hits + 1 } })
    else
      getFile { s with memoryCache := alistDel s.memoryCache key } key now
  | none => getFile s key now

/-- redis.js lines 121-136: remove the raw key from the memory tier and
unlink the normalized key's file; always reports success. -/
def del (s : CacheState) (key : String) : Bool × CacheState :=
  (true,
    { s with
      memoryCache := alistDel s.memoryCache key
      files := alistDel s.files (generateCacheKey key) })

/-- redis.js lines 139-142: `(await this.get(key)) !== null`. -/
def existsKey (s : CacheState) (key : String) (now : Nat) : Bool × CacheState :=
  let r := get s key now
  (r.1 ≠ JSValue.null, r.2)

/-- redis.js lines 145-156: re-read through `get`; when non-null, re-`set`
with the new ttl, otherwise return false. -/
def expire (s : CacheState) (key : String) (seconds : Nat) (now : Nat)
    (writeOk : Bool) : Bool × CacheState :=
  let r := get s key now
  if r.1 ≠ JSValue.null then set r.2 key r.1 seconds now writeOk
  else (false, r.2)

/-- redis.js lines 159-166: positionally aligned multi-get. -/
def mget (s : CacheState) (keys : List String) (now : Nat) : List JSValue × CacheState :=
  match keys with
  | [] => ([], s)
  | k :: rest =>
    let r := get s k now
    let rs := mget r.2 rest now
    (r.1 :: rs.1, rs.2)

/-- `set` as invoked from the `mset` loop, where the key slot holds an
arbitrary array element.  A non-string key makes `key.replace` inside
`generateCacheKey` throw at the top of `set`'s try block, so `set`
returns `false` having mutated nothing. -/
def setJS (s : CacheState) (key : JSValue) (value : JSValue) (ttlSeconds : Nat)
    (now : Nat) (writeOk : Bool) : Bool × CacheState :=
  match key with
  | JSValue.str k => set s k value ttlSeconds now writeOk
  | _ => (false, s)

/-- redis.js lines 169-178, the loop body.  `for (i = 0; i < n; i += 2)`
takes `keyValuePairs[i]` as key and `keyValuePairs[i + 1]` as value; when
`i` is the last index of an odd-length array, `keyValuePairs[i + 1]` is
JS `undefined`.  `wok` supplies each successive file write's outcome
(`[]` means every write succeeds); the overall result conjoins the
per-call booleans, as `results.every(r => r === true)` does. -/
def msetGo (s : CacheState) (arr : List JSValue) (ttlSeconds : Nat) (now : Nat)
    (wok : List Bool) : Bool × CacheState :=
  match arr with
  | [] => (true, s)
  | [k] => setJS s k JSValue.undef ttlSeconds now (wok.headD true)
  | k :: v :: rest =>
    let r := setJS s k v ttlSeconds now (wok.headD true)
    let rs := msetGo r.2 rest ttlSeconds now wok.tail
    (r.1 && rs.1, rs.2)

/-- redis.js lines 169-178. -/
def mset (s : CacheState) (arr : List JSValue) (ttlSeconds : Nat) (now : Nat)
    (wok : List Bool) : Bool × CacheState :=
  msetGo s arr ttlSeconds now wok

/-- Liveness test applied to a file entry during the sweep: a parsed
record survives iff `now < expiresAt`; a corrupt file never survives
(redis.js lines 198-212: the catch block deletes it). -/
def fileLive (now : Nat) (fd : Option CacheItem) : Bool :=
  match fd with
  | some item => now < item.expiresAt
  | none => false

/-- redis.js lines 181-221: the sweep.  Memory entries with
`now >= expiresAt` are deleted; every file is read and parsed, expired
records are unlinked, and a file that fails to read or parse is unlinked
as well. -/
def cleanExpiredItems (s : CacheState) (now : Nat) : CacheState :=
  { s with
    memoryCache := alistFilter (fun _ item => now < item.expiresAt) s.memoryCache
    files := alistFilter (fun _ fd => fileLive now fd) s.files }

/-- redis.js lines 224-244: clear both tiers and reset the counters. -/
def flushall (s : CacheState) : Bool × CacheState :=
  (true,
    { s with
      memoryCache := []
      files := []
      stats := { hits := 0, misses := 0, sets := 0 } })

/-- The record returned by `stats()`. -/
structure StatsResult where
  hits : Nat
  misses : Nat
  sets : Nat
  memoryItems : Nat
  fileItems : Nat
  hitRate : ℚ
  deriving DecidableEq, Repr

/-- JS `a / b || 0` over the exact-rational model of float division:
`0 / 0` is `NaN` and coerces to `0`, and a falsy `0` quotient is likewise
replaced by `0` (the same value). -/
def jsDivOr0 (a b : Nat) : ℚ :=
  if b = 0 then 0 else (a : ℚ) / (b : ℚ)

/-- redis.js lines 247-266. -/
def stats (s : CacheState) : StatsResult :=
  { hits := s.stats.hits
    misses := s.stats.misses
    sets := s.stats.sets
    memoryItems := s.memoryCache.length
    fileItems := s.files.length
    hitRate := jsDivOr0 s.stats.hits (s.stats.hits + s.stats.misses) }

end FileCache

/-- One public cache operation together with the explicit inputs (current
time, write outcomes) the embedding threads through. -/
inductive Op where
  | opSet (key : String) (value : JSValue) (ttl : Nat) (now : Nat) (writeOk : Bool)
  | opGet (key : String) (now : Nat)
  | opDel (key : String)
  | opExists (key : String) (now : Nat)
  | opExpire (key : String) (seconds : Nat) (now : Nat) (writeOk : Bool)
  | opMget (keys : List String) (now : Nat)
  | opMset (arr : List JSValue) (ttl : Nat) (now : Nat) (wok : List Bool)
  | opClean (now : Nat)
  | opFlushall
  deriving Repr

/-- Execute one operation, discarding its return value. -/
def execOp (s : CacheState) (op : Op) : CacheState :=
  match op with
  | Op.opSet k v ttl now w => (FileCache.set s k v ttl now w).2
  | Op.opGet k now => (FileCache.get s k now).2
  | Op.opDel k => (FileCache.del s k).2
  | Op.opExists k now => (FileCache.existsKey s k now).2
  | Op.opExpire k secs now w => (FileCache.expire s k secs now w).2
  | Op.opMget keys now => (FileCache.mget s keys now).2
  | Op.opMset arr ttl now wok => (FileCache.mset s arr ttl now wok).2
  | Op.opClean now => FileCache.cleanExpiredItems s now
  | Op.opFlushall => (FileCache.flushall s).2

/-- Execute a whole history of operations, front to back. -/
def execProg (s : CacheState) (prog : List Op) : CacheState :=
  match prog with
  | [] => s
  | op :: rest => execProg (execOp s op) rest

/-- Every element used as a key by the `mset` loop — the even positions,
including a trailing unpaired element — is a JS string. -/
def keysAreStrings : List JSValue → Prop
  | [] => True
  | [k] => ∃ t : String, k = JSValue.str t
  | k :: _ :: rest => (∃ t : String, k = JSValue.str t) ∧ keysAreStrings rest

/-! ### Association-list lemmas -/

theorem alistGet_alistSet_self (m : List (String × α)) (k : String) (v : α) :
    alistGet (alistSet m k v) k = some v := by
  induction m with
  | nil => simp [alistSet, alistGet]
  | cons hd tl ih =>
    obtain ⟨k0, v0⟩ := hd
    by_cases h : k0 = k
    · simp [alistSet, alistGet, h]
    · simp [alistSet, alistGet, h, ih]

theorem alistGet_alistSet_ne (m : List (String × α)) (k k' : String) (v : α)
    (h : k' ≠ k) : alistGet (alistSet m k v) k' = alistGet m k' := by
  induction m with
  | nil => simp [alistSet, alistGet, Ne.symm h]
  | cons hd tl ih =>
    obtain ⟨k0, v0⟩ := hd
    by_cases h0 : k0 = k
    · subst h0
      simp [alistSet, alistGet, Ne.symm h]
    · simp [alistSet, alistGet, h0, ih]

theorem alistSet_length_le (m : List (String × α)) (k : String) (v : α) :
    (alistSet m k v).length ≤ m.length + 1 := by
  induction m with
  | nil => simp [alistSet]
  | cons hd tl ih =>
    obtain ⟨k0, v0⟩ := hd
    by_cases h : k0 = k
    · simp [alistSet, h]
    · simpa [alistSet, h] using ih

theorem alistDel_length_le (m : List (String × α)) (k : String) :
    (alistDel m k).length ≤ m.length := by
  induction m with
  | nil => simp [alistDel]
  | cons hd tl ih =>
    obtain ⟨k0, v0⟩ := hd
    by_cases h : k0 = k
    · simp only [alistDel, h, if_true]
      exact Nat.le_succ_of_le ih
    · simpa [alistDel, h] using ih

theorem alistGet_alistDel_self (m : List (String × α)) (k : String) :
    alistGet (alistDel m k) k = none := by
  induction m with
  | nil => simp [alistDel, alistGet]
  | cons hd tl ih =>
    obtain ⟨k0, v0⟩ := hd
    by_cases h : k0 = k
    · simpa [alistDel, h] using ih
    · simp [alistDel, alistGet, h, ih]

theorem alistGet_alistDel_ne (m : List (String × α)) (k k' : String)
    (h : k' ≠ k) : alistGet (alistDel m k) k' = alistGet m k' := by
  induction m with
  | nil => simp [alistDel]
  | cons hd tl ih =>
    obtain ⟨k0, v0⟩ := hd
    by_cases h0 : k0 = k
    · subst h0
      simp [alistDel, alistGet, Ne.symm h, ih]
    · simp [alistDel, alistGet, h0, ih]

theorem alistFilter_length_le (p : String → α → Bool) (m : List (String × α)) :
    (alistFilter p m).length ≤ m.length := by
  induction m with
  | nil => simp [alistFilter]
  | cons hd tl ih =>
    obtain ⟨k0, v0⟩ := hd
    by_cases h : p k0 v0
    · simpa [alistFilter, h] using ih
    · simp only [alistFilter, h, if_false]
      exact Nat.le_succ_of_le ih

theorem alistGet_alistFilter_none (p : String → α → Bool) (m : List (String × α))
    (k : String) (h : alistGet m k = none) : alistGet (alistFilter p m) k = none := by
  induction m with
  | nil => simp [alistFilter, alistGet]
  | cons hd tl ih =>
    obtain ⟨k0, v0⟩ := hd
    by_cases h0 : k0 = k
    · simp [alistGet, h0] at h
    · have htl : alistGet tl k = none := by simpa [alistGet, h0] using h
      by_cases hp : p k0 v0
      · simp [alistFilter, alistGet, hp, h0, ih htl]
      · simp [alistFilter, hp, ih htl]

theorem alistGet_alistFilter_some_imp (p : String → α → Bool) (m : List (String × α))
    (k : String) (v : α) (h : alistGet (alistFilter p m) k = some v) : p k v = true := by
  induction m with
  | nil => simp [alistFilter, alistGet] at h
  | cons hd tl ih =>
    obtain ⟨k0, v0⟩ := hd
    by_cases hp : p k0 v0
    · by_cases h0 : k0 = k
      · subst h0
        have hv : v0 = v := by simpa [alistFilter, alistGet, hp] using h
        exact hv ▸ hp
      · exact ih (by simpa [alistFilter, alistGet, hp, h0] using h)
    · exact ih (by simpa [alistFilter, hp] using h)

theorem alistGet_alistFilter_of_pos (p : String → α → Bool) (m : List (String × α))
    (k : String) (v : α) (h : alistGet m k = some v) (hp : p k v = true) :
    alistGet (alistFilter p m) k = some v := by
  induction m with
  | nil => simp [alistGet] at h
  | cons hd tl ih =>
    obtain ⟨k0, v0⟩ := hd
    by_cases h0 : k0 = k
    · subst h0
      have hv : v0 = v := by simpa [alistGet] using h
      subst hv
      simp [alistFilter, alistGet, hp]
    · have htl : alistGet tl k = some v := by simpa [alistGet, h0] using h
      by_cases hq : p k0 v0
      · simp [alistFilter, alistGet, hq, h0, ih htl]
      · simp [alistFilter, hq, ih htl]

theorem alistGet_eq_none_of_not_mem (m : List (String × α)) (k : String)
    (h : k ∉ m.map Prod.fst) : alistGet m k = none := by
  induction m with
  | nil => simp [alistGet]
  | cons hd tl ih =>
    obtain ⟨k0, v0⟩ := hd
    simp only [List.map_cons, List.mem_cons] at h
    push_neg at h
    simp [alistGet, Ne.symm h.1, ih h.2]

theorem alistGet_alistFilter_of_neg (p : String → α → Bool) (m : List (String × α))
    (k : String) (v : α) (hnd : (m.map Prod.fst).Nodup)
    (h : alistGet m k = some v) (hp : p k v = false) :
    alistGet (alistFilter p m) k = none := by
  induction m with
  | nil => simp [alistGet] at h
  | cons hd tl ih =>
    obtain ⟨k0, v0⟩ := hd
    simp only [List.map_cons, List.nodup_cons] at hnd
    by_cases h0 : k0 = k
    · subst h0
      have hv : v0 = v := by simpa [alistGet] using h
      subst hv
      have habs : alistGet tl k0 = none := alistGet_eq_none_of_not_mem tl k0 hnd.1
      simp [alistFilter, hp, alistGet_alistFilter_none p tl k0 habs]
    · have htl : alistGet tl k = some v := by simpa [alistGet, h0] using h
      by_cases hq : p k0 v0
      · simp [alistFilter, alistGet, hq, h0, ih hnd.2 htl]
      · simp [alistFilter, hq, ih hnd.2 htl]

/-! ### Basic facts about `set` -/

theorem set_fst (s : CacheState) (k : String) (v : JSValue) (ttl now : Nat) (w : Bool) :
    (FileCache.set s k v ttl now w).1 = w := by
  cases w <;> simp [FileCache.set]

theorem set_sets_count (s : CacheState) (k : String) (v : JSValue) (ttl now : Nat) (w : Bool) :
    (FileCache.set s k v ttl now w).2.stats.sets =
      s.stats.sets + (if w then 1 else 0) := by
  cases w <;> simp [FileCache.set]

/-! ### Claim theorems -/

/-- C1, counterexample.  The round-trip law fails as stated: with
`maxMemoryItems = 1`, setting key `k` twice leaves the first record in the
memory tier (the capacity test `size < maxMemoryItems` skips the second
memory insertion even though `k` is already resident), so an immediate
`get` returns the first value, not the one just written. -/
theorem C1_counterexample :
    (FileCache.get
        (FileCache.set
          (FileCache.set (FileCache.initial 1) "k" (JSValue.str "old") 100 0 true).2
          "k" (JSValue.str "new") 100 0 true).2
        "k" 0).1 = JSValue.str "old" ∧
      JSValue.str "old" ≠ JSValue.str "new" := by
  decide

/-- C1, amended.  `set(k, v, ttl)` with `ttl > 0` and a successful write,
followed immediately by `get(k)`, returns `v` — provided the memory tier
is under capacity, or whatever record it already holds for `k` (if any)
is expired at the read time.  (At capacity, a live stale resident record
for `k` is returned instead, as the counterexample shows.) -/
theorem C1_roundTrip (s : CacheState) (k : String) (v : JSValue) (ttl now : Nat)
    (httl : 0 < ttl)
    (hmem : s.memoryCache.length < s.maxMemoryItems ∨
      ∀ it : CacheItem, alistGet s.memoryCache k = some it → it.expiresAt ≤ now) :
    (FileCache.get (FileCache.set s k v ttl now true).2 k now).1 = v := by
  have hlive : now < now + ttl * 1000 := by
    have h1000 : 0 < ttl * 1000 := Nat.mul_pos httl (by norm_num)
    omega
  by_cases hcap : s.memoryCache.length < s.maxMemoryItems
  · simp [FileCache.set, FileCache.get, hcap, alistGet_alistSet_self, hlive]
  · have hexp : ∀ it : CacheItem, alistGet s.memoryCache k = some it → it.expiresAt ≤ now := by
      rcases hmem with h | h
      · exact absurd h hcap
      · exact h
    cases hres : alistGet s.memoryCache k with
    | none =>
      simp [FileCache.set, FileCache.get, FileCache.getFile, hcap, hres,
        alistGet_alistSet_self, hlive]
    | some it =>
      have hit := Nat.not_lt.mpr (hexp it hres)
      simp [FileCache.set, FileCache.get, FileCache.getFile, hcap, hres,
        alistGet_alistSet_self, hlive, hit]

/-- C1 witness: a concrete under-capacity round trip. -/
theorem C1_roundTrip_witness :
    (FileCache.get
        (FileCache.set (FileCache.initial 10) "a" (JSValue.num 42) 5 0 true).2
        "a" 0).1 = JSValue.num 42 :=
  C1_roundTrip (FileCache.initial 10) "a" (JSValue.num 42) 5 0 (by decide)
    (Or.inl (by decide))

/-- C3, counterexample.  The claim says a `set` on a key already resident
in the memory tier updates the in-memory record even at capacity.  In the
code the admission test is `size < maxMemoryItems` alone: with capacity 1
and `k` resident, a second `set(k, "new")` leaves the in-memory record at
its old value and expiry. -/
theorem C3_counterexample :
    (FileCache.set
        (FileCache.set (FileCache.initial 1) "k" (JSValue.str "old") 100 0 true).2
        "k" (JSValue.str "new") 200 50 true).2.memoryCache =
      [("k", { value := JSValue.str "old", expiresAt := 100000, createdAt := 0, key := "k" })] := by
  decide

/-- C3, amended.  Once the memory tier holds `maxMemoryItems` (or more)
entries, `set` skips the memory insertion unconditionally — even when the
key is already resident — while the new record is still persisted to the
file tier (when the write succeeds). -/
theorem C3_capacitySkip (s : CacheState) (k : String) (v : JSValue) (ttl now : Nat)
    (wok : Bool) (hcap : s.maxMemoryItems ≤ s.memoryCache.length) :
    (FileCache.set s k v ttl now wok).2.memoryCache = s.memoryCache ∧
    (wok = true →
      alistGet (FileCache.set s k v ttl now wok).2.files (FileCache.generateCacheKey k) =
        some (some { value := v, expiresAt := now + ttl * 1000, createdAt := now, key := k })) := by
  have hnc : ¬ s.memoryCache.length < s.maxMemoryItems := Nat.not_lt.mpr hcap
  cases wok
  · simp [FileCache.set, hnc]
  · simp [FileCache.set, hnc, alistGet_alistSet_self]

/-- C3 witness: the at-capacity overwrite of a resident key, concretely. -/
theorem C3_capacitySkip_witness :
    (FileCache.set
        (FileCache.set (FileCache.initial 1) "k" (JSValue.str "old") 100 0 true).2
        "k" (JSValue.str "new") 200 50 true).2.memoryCache =
      (FileCache.set (FileCache.initial 1) "k" (JSValue.str "old") 100 0 true).2.memoryCache ∧
    (true = true →
      alistGet
          (FileCache.set
            (FileCache.set (FileCache.initial 1) "k" (JSValue.str "old") 100 0 true).2
            "k" (JSValue.str "new") 200 50 true).2.files
          (FileCache.generateCacheKey "k") =
        some (some { value := JSValue.str "new", expiresAt := 50 + 200 * 1000,
                     createdAt := 50, key := "k" })) :=
  C3_capacitySkip
    (FileCache.set (FileCache.initial 1) "k" (JSValue.str "old") 100 0 true).2
    "k" (JSValue.str "new") 200 50 true (by decide)

/-- C8, confirmed.  When the memory tier is under capacity and the file
write fails, `set` returns `false`, leaves the counters and the file tier
untouched, yet has already inserted the record into the memory tier: a
`get` before the expiry returns the value and counts a hit. -/
theorem C8_nonAtomicSet (s : CacheState) (k : String) (v : JSValue) (ttl now now' : Nat)
    (hcap : s.memoryCache.length < s.maxMemoryItems)
    (hlive : now' < now + ttl * 1000) :
    (FileCache.set s k v ttl now false).1 = false ∧
    (FileCache.set s k v ttl now false).2.stats = s.stats ∧
    (FileCache.set s k v ttl now false).2.files = s.files ∧
    (FileCache.get (FileCache.set s k v ttl now false).2 k now').1 = v ∧
    (FileCache.get (FileCache.set s k v ttl now false).2 k now').2.stats.hits =
      s.stats.hits + 1 := by
  simp [FileCache.set, FileCache.get, hcap, alistGet_alistSet_self, hlive]

/-- C8 witness: a concrete failed write that still populates the memory
tier. -/
theorem C8_nonAtomicSet_witness :
    (FileCache.set (FileCache.initial 10) "a" (JSValue.num 7) 5 0 false).1 = false ∧
    (FileCache.set (FileCache.initial 10) "a" (JSValue.num 7) 5 0 false).2.stats =
      (FileCache.initial 10).stats ∧
    (FileCache.set (FileCache.initial 10) "a" (JSValue.num 7) 5 0 false).2.files =
      (FileCache.initial 10).files ∧
    (FileCache.get (FileCache.set (FileCache.initial 10) "a" (JSValue.num 7) 5 0 false).2
        "a" 100).1 = JSValue.num 7 ∧
    (FileCache.get (FileCache.set (FileCache.initial 10) "a" (JSValue.num 7) 5 0 false).2
        "a" 100).2.stats.hits = (FileCache.initial 10).stats.hits + 1 :=
  C8_nonAtomicSet (FileCache.initial 10) "a" (JSValue.num 7) 5 0 100 (by decide) (by decide)

/-- C9, confirmed.  A stored `null` is indistinguishable from absence at
the public interface: after a successful under-capacity
`set(k, null, ttl)` and within the ttl, `get(k)` returns the same `null`
sentinel used for misses while still counting a hit, `exists(k)` is
`false`, and `expire(k, s)` is `false`, although a live record for `k`
sits in both tiers. -/
theorem C9_nullValue (s : CacheState) (k : String) (ttl secs now now' : Nat) (wok : Bool)
    (hcap : s.memoryCache.length < s.maxMemoryItems)
    (hlive : now' < now + ttl * 1000) :
    (FileCache.set s k JSValue.null ttl now true).1 = true ∧
    (FileCache.get (FileCache.set s k JSValue.null ttl now true).2 k now').1 =
      JSValue.null ∧
    (FileCache.get (FileCache.set s k JSValue.null ttl now true).2 k now').2.stats.hits =
      s.stats.hits + 1 ∧
    (FileCache.existsKey (FileCache.set s k JSValue.null ttl now true).2 k now').1 = false ∧
    (FileCache.expire (FileCache.set s k JSValue.null ttl now true).2 k secs now' wok).1 =
      false ∧
    (∃ it : CacheItem,
      alistGet (FileCache.set s k JSValue.null ttl now true).2.memoryCache k = some it ∧
      now' < it.expiresAt ∧
      alistGet (FileCache.set s k JSValue.null ttl now true).2.files
        (FileCache.generateCacheKey k) = some (some it)) := by
  refine ⟨?_, ?_, ?_, ?_, ?_,
      ⟨{ value := JSValue.null, expiresAt := now + ttl * 1000, createdAt := now, key := k },
        ?_, ?_, ?_⟩⟩ <;>
    simp [FileCache.set, FileCache.get, FileCache.existsKey, FileCache.expire, hcap,
      alistGet_alistSet_self, hlive]

/-- C9 witness: a concrete null round trip. -/
theorem C9_nullValue_witness :
    (FileCache.set (FileCache.initial 10) "a" JSValue.null 5 0 true).1 = true ∧
    (FileCache.get (FileCache.set (FileCache.initial 10) "a" JSValue.null 5 0 true).2
        "a" 100).1 = JSValue.null ∧
    (FileCache.get (FileCache.set (FileCache.initial 10) "a" JSValue.null 5 0 true).2
        "a" 100).2.stats.hits = (FileCache.initial 10).stats.hits + 1 ∧
    (FileCache.existsKey (FileCache.set (FileCache.initial 10) "a" JSValue.null 5 0 true).2
        "a" 100).1 = false ∧
    (FileCache.expire (FileCache.set (FileCache.initial 10) "a" JSValue.null 5 0 true).2
        "a" 60 100 true).1 = false ∧
    (∃ it : CacheItem,
      alistGet (FileCache.set (FileCache.initial 10) "a" JSValue.null 5 0 true).2.memoryCache
        "a" = some it ∧
      100 < it.expiresAt ∧
      alistGet (FileCache.set (FileCache.initial 10) "a" JSValue.null 5 0 true).2.files
        (FileCache.generateCacheKey "a") = some (some it)) :=
  C9_nullValue (FileCache.initial 10) "a" 5 60 0 100 true (by decide) (by decide)

/-- C10, confirmed.  For distinct raw keys that normalize to the same
identifier, `del(k1)` removes only `k1` from the memory tier (the memory
binding of `k2` is untouched) but unlinks the single shared file, so a
`get(k2)` that is not served from memory reports a miss. -/
theorem C10_delCollision (s : CacheState) (k1 k2 : String) (now : Nat)
    (hne : k1 ≠ k2)
    (hcoll : FileCache.generateCacheKey k1 = FileCache.generateCacheKey k2) :
    (FileCache.del s k1).1 = true ∧
    alistGet (FileCache.del s k1).2.memoryCache k2 = alistGet s.memoryCache k2 ∧
    alistGet (FileCache.del s k1).2.files (FileCache.generateCacheKey k2) = none ∧
    (alistGet s.memoryCache k2 = none →
      (FileCache.get (FileCache.del s k1).2 k2 now).1 = JSValue.null ∧
      (FileCache.get (FileCache.del s k1).2 k2 now).2.stats.misses =
        s.stats.misses + 1) := by
  have hmem2 : alistGet (alistDel s.memoryCache k1) k2 = alistGet s.memoryCache k2 :=
    alistGet_alistDel_ne s.memoryCache k1 k2 (Ne.symm hne)
  have hfile2 : alistGet (alistDel s.files (FileCache.generateCacheKey k1))
      (FileCache.generateCacheKey k2) = none := by
    rw [← hcoll]
    exact alistGet_alistDel_self s.files (FileCache.generateCacheKey k1)
  refine ⟨rfl, ?_, ?_, ?_⟩
  · simpa [FileCache.del] using hmem2
  · simpa [FileCache.del] using hfile2
  · intro habs
    have hmem0 : alistGet (alistDel s.memoryCache k1) k2 = none := hmem2.trans habs
    constructor <;>
      simp [FileCache.get, FileCache.del, FileCache.getFile, hmem0, hfile2]

/-- C10 witness: keys "a.b" and "a_b" collide on the normalized name
"a_b"; with capacity 1, "a_b" is set more recently (file tier only),
`del("a.b")` unlinks the shared file, and `get("a_b")` misses although
its record was live. -/
theorem C10_delCollision_witness :
    (FileCache.del
        (FileCache.set
          (FileCache.set (FileCache.initial 1) "a.b" (JSValue.num 1) 100 0 true).2
          "a_b" (JSValue.num 2) 100 10 true).2
        "a.b").1 = true ∧
    alistGet
        (FileCache.del
          (FileCache.set
            (FileCache.set (FileCache.initial 1) "a.b" (JSValue.num 1) 100 0 true).2
            "a_b" (JSValue.num 2) 100 10 true).2
          "a.b").2.memoryCache "a_b" =
      alistGet
        (FileCache.set
          (FileCache.set (FileCache.initial 1) "a.b" (JSValue.num 1) 100 0 true).2
          "a_b" (JSValue.num 2) 100 10 true).2.memoryCache "a_b" ∧
    alistGet
        (FileCache.del
          (FileCache.set
            (FileCache.set (FileCache.initial 1) "a.b" (JSValue.num 1) 100 0 true).2
            "a_b" (JSValue.num 2) 100 10 true).2
          "a.b").2.files (FileCache.generateCacheKey "a_b") = none ∧
    (alistGet
        (FileCache.set
          (FileCache.set (FileCache.initial 1) "a.b" (JSValue.num 1) 100 0 true).2
          "a_b" (JSValue.num 2) 100 10 true).2.memoryCache "a_b" = none →
      (FileCache.get
          (FileCache.del
            (FileCache.set
              (FileCache.set (FileCache.initial 1) "a.b" (JSValue.num 1) 100 0 true).2
              "a_b" (JSValue.num 2) 100 10 true).2
            "a.b").2 "a_b" 20).1 = JSValue.null ∧
      (FileCache.get
          (FileCache.del
            (FileCache.set
              (FileCache.set (FileCache.initial 1) "a.b" (JSValue.num 1) 100 0 true).2
              "a_b" (JSValue.num 2) 100 10 true).2
            "a.b").2 "a_b" 20).2.stats.misses =
        (FileCache.set
          (FileCache.set (FileCache.initial 1) "a.b" (JSValue.num 1) 100 0 true).2
          "a_b" (JSValue.num 2) 100 10 true).2.stats.misses + 1) :=
  C10_delCollision
    (FileCache.set
      (FileCache.set (FileCache.initial 1) "a.b" (JSValue.num 1) 100 0 true).2
      "a_b" (JSValue.num 2) 100 10 true).2
    "a.b" "a_b" 20 (by decide) (by decide)

/-- C5, counterexample.  Liveness of the freshly written record is not
what decides the read: with capacity 1 and `k` resident with a long-lived
record, `set(k, "new", 1)` at time 0 skips the memory update; a `get` at
time 2000 ms — strictly past the one-second ttl of the write — returns
the stale value `"old"` as a hit, counts no miss, and leaves the on-disk
record in place, where the claim demands an absent result, a deletion and
a miss. -/
theorem C5_counterexample :
    (FileCache.get
        (FileCache.set
          (FileCache.set (FileCache.initial 1) "k" (JSValue.str "old") 1000 0 true).2
          "k" (JSValue.str "new") 1 0 true).2
        "k" 2000).1 = JSValue.str "old" ∧
    (0 : Nat) + 1 * 1000 < 2000 ∧
    (FileCache.get
        (FileCache.set
          (FileCache.set (FileCache.initial 1) "k" (JSValue.str "old") 1000 0 true).2
          "k" (JSValue.str "new") 1 0 true).2
        "k" 2000).2.stats.misses = 0 ∧
    alistGet
        (FileCache.get
          (FileCache.set
            (FileCache.set (FileCache.initial 1) "k" (JSValue.str "old") 1000 0 true).2
            "k" (JSValue.str "new") 1 0 true).2
          "k" 2000).2.files (FileCache.generateCacheKey "k") =
      some (some { value := JSValue.str "new", expiresAt := 1000, createdAt := 0, key := "k" }) := by
  decide

/-- C5, amended.  After `set(k, v, ttl)` at time `now` (write succeeding),
a `get(k)` at any time strictly after `now + ttl` seconds returns the
absent result, deletes the on-disk record, and counts a miss — provided
the Memory Index was under capacity at the write, or whatever record it
holds for `k` (if any) is also expired at the read time; at capacity a
live stale resident record is served instead, as the counterexample
shows. -/
theorem C5_expiry (s : CacheState) (k : String) (v : JSValue) (ttl now now' : Nat)
    (hlate : now + ttl * 1000 < now')
    (hmem : s.memoryCache.length < s.maxMemoryItems ∨
      ∀ it : CacheItem, alistGet s.memoryCache k = some it → it.expiresAt ≤ now') :
    (FileCache.get (FileCache.set s k v ttl now true).2 k now').1 = JSValue.null ∧
    (FileCache.get (FileCache.set s k v ttl now true).2 k now').2.stats.misses =
      s.stats.misses + 1 ∧
    alistGet (FileCache.get (FileCache.set s k v ttl now true).2 k now').2.files
      (FileCache.generateCacheKey k) = none := by
  have hdead : ¬ now' < now + ttl * 1000 := by omega
  by_cases hcap : s.memoryCache.length < s.maxMemoryItems
  · simp [FileCache.set, FileCache.get, FileCache.getFile, hcap,
      alistGet_alistSet_self, hdead, alistGet_alistDel_self]
  · have hexp : ∀ it : CacheItem, alistGet s.memoryCache k = some it → it.expiresAt ≤ now' := by
      rcases hmem with h | h
      · exact absurd h hcap
      · exact h
    cases hres : alistGet s.memoryCache k with
    | none =>
      simp [FileCache.set, FileCache.get, FileCache.getFile, hcap, hres,
        alistGet_alistSet_self, hdead, alistGet_alistDel_self]
    | some it =>
      have hit : ¬ now' < it.expiresAt := Nat.not_lt.mpr (hexp it hres)
      simp [FileCache.set, FileCache.get, FileCache.getFile, hcap, hres,
        alistGet_alistSet_self, hdead, hit, alistGet_alistDel_self]

/-- C5 witness: a concrete expired read under capacity. -/
theorem C5_expiry_witness :
    (FileCache.get (FileCache.set (FileCache.initial 10) "a" (JSValue.num 3) 1 0 true).2
        "a" 2000).1 = JSValue.null ∧
    (FileCache.get (FileCache.set (FileCache.initial 10) "a" (JSValue.num 3) 1 0 true).2
        "a" 2000).2.stats.misses = (FileCache.initial 10).stats.misses + 1 ∧
    alistGet
        (FileCache.get (FileCache.set (FileCache.initial 10) "a" (JSValue.num 3) 1 0 true).2
          "a" 2000).2.files (FileCache.generateCacheKey "a") = none :=
  C5_expiry (FileCache.initial 10) "a" (JSValue.num 3) 1 0 2000 (by decide)
    (Or.inl (by decide))

/-- A `get` whose key is absent from the memory tier but has a live file
record is a file-tier hit: it returns the record's value and increments
the hit counter. -/
theorem get_fileHit (s : CacheState) (k : String) (now : Nat) (it : CacheItem)
    (hm : alistGet s.memoryCache k = none)
    (hf : alistGet s.files (FileCache.generateCacheKey k) = some (some it))
    (hlive : now < it.expiresAt) :
    (FileCache.get s k now).1 = it.value ∧
    (FileCache.get s k now).2.stats.hits = s.stats.hits + 1 := by
  simp [FileCache.get, FileCache.getFile, hm, hf, hlive]

/-- A `get` counts a hit whenever the file record for the key is live and
any memory entry for the key is live too (whichever tier serves it). -/
theorem get_live_hit (s : CacheState) (k : String) (now : Nat) (it : CacheItem)
    (hf : alistGet s.files (FileCache.generateCacheKey k) = some (some it))
    (hlive : now < it.expiresAt)
    (hml : ∀ itm : CacheItem, alistGet s.memoryCache k = some itm → now < itm.expiresAt) :
    (FileCache.get s k now).2.stats.hits = s.stats.hits + 1 := by
  cases hm : alistGet s.memoryCache k with
  | some itm =>
    have h := hml itm hm
    simp [FileCache.get, hm, h]
  | none => simp [FileCache.get, FileCache.getFile, hm, hf, hlive]

/-- C6, confirmed.  One sweep at time `now` removes exactly the expired
persisted records and every unparsable file, while every record with a
future `expiresAt` stays in storage unchanged and remains retrievable: a
subsequent `get` on its key counts a hit, and (when the key is not
resident in memory) returns the record's value.  File names are assumed
distinct, as they are for a real directory listing. -/
theorem C6_sweep (s : CacheState) (now : Nat) (ck k : String)
    (hnd : (s.files.map Prod.fst).Nodup) :
    (∀ it : CacheItem, alistGet s.files ck = some (some it) → it.expiresAt ≤ now →
      alistGet (FileCache.cleanExpiredItems s now).files ck = none) ∧
    (alistGet s.files ck = some none →
      alistGet (FileCache.cleanExpiredItems s now).files ck = none) ∧
    (∀ it : CacheItem, alistGet s.files ck = some (some it) → now < it.expiresAt →
      alistGet (FileCache.cleanExpiredItems s now).files ck = some (some it)) ∧
    (∀ it : CacheItem,
      alistGet s.files (FileCache.generateCacheKey k) = some (some it) →
      now < it.expiresAt →
      (FileCache.get (FileCache.cleanExpiredItems s now) k now).2.stats.hits =
        s.stats.hits + 1 ∧
      (alistGet s.memoryCache k = none →
        (FileCache.get (FileCache.cleanExpiredItems s now) k now).1 = it.value)) := by
  refine ⟨?_, ?_, ?_, ?_⟩
  · intro it hf hexp
    simp only [FileCache.cleanExpiredItems]
    exact alistGet_alistFilter_of_neg _ s.files ck (some it) hnd hf
      (by simp [FileCache.fileLive, Nat.not_lt.mpr hexp])
  · intro hf
    simp only [FileCache.cleanExpiredItems]
    exact alistGet_alistFilter_of_neg _ s.files ck none hnd hf
      (by simp [FileCache.fileLive])
  · intro it hf hlive
    simp only [FileCache.cleanExpiredItems]
    exact alistGet_alistFilter_of_pos _ s.files ck (some it) hf
      (by simp [FileCache.fileLive, hlive])
  · intro it hf hlive
    have hf2 : alistGet (FileCache.cleanExpiredItems s now).files
        (FileCache.generateCacheKey k) = some (some it) := by
      simp only [FileCache.cleanExpiredItems]
      exact alistGet_alistFilter_of_pos _ s.files (FileCache.generateCacheKey k) (some it) hf
        (by simp [FileCache.fileLive, hlive])
    constructor
    · have hml : ∀ itm : CacheItem,
          alistGet (FileCache.cleanExpiredItems s now).memoryCache k = some itm →
          now < itm.expiresAt := by
        intro itm hm
        have hp := alistGet_alistFilter_some_imp
          (fun _ item => decide (now < item.expiresAt)) s.memoryCache k itm
          (by simpa [FileCache.cleanExpiredItems] using hm)
        simpa using hp
      have hh := get_live_hit (FileCache.cleanExpiredItems s now) k now it hf2 hlive hml
      simpa [FileCache.cleanExpiredItems] using hh
    · intro hmem
      have hm : alistGet (FileCache.cleanExpiredItems s now).memoryCache k = none := by
        simp only [FileCache.cleanExpiredItems]
        exact alistGet_alistFilter_none _ s.memoryCache k hmem
      exact (get_fileHit (FileCache.cleanExpiredItems s now) k now it hm hf2 hlive).1

/-- C6 witness: one expired record, one corrupt file and one live record;
the sweep removes the first two, keeps the third, and a `get` on it is a
hit returning its value. -/
theorem C6_sweep_witness :
    alistGet
        (FileCache.cleanExpiredItems
          { memoryCache := []
            files := [("e", some { value := JSValue.num 1, expiresAt := 500, createdAt := 0, key := "e" }),
                      ("c", none),
                      ("l", some { value := JSValue.num 9, expiresAt := 2000, createdAt := 0, key := "l" })]
            stats := { hits := 0, misses := 0, sets := 0 }
            maxMemoryItems := 10 } 1000).files "e" = none ∧
    alistGet
        (FileCache.cleanExpiredItems
          { memoryCache := []
            files := [("e", some { value := JSValue.num 1, expiresAt := 500, createdAt := 0, key := "e" }),
                      ("c", none),
                      ("l", some { value := JSValue.num 9, expiresAt := 2000, createdAt := 0, key := "l" })]
            stats := { hits := 0, misses := 0, sets := 0 }
            maxMemoryItems := 10 } 1000).files "c" = none ∧
    alistGet
        (FileCache.cleanExpiredItems
          { memoryCache := []
            files := [("e", some { value := JSValue.num 1, expiresAt := 500, createdAt := 0, key := "e" }),
                      ("c", none),
                      ("l", some { value := JSValue.num 9, expiresAt := 2000, createdAt := 0, key := "l" })]
            stats := { hits := 0, misses := 0, sets := 0 }
            maxMemoryItems := 10 } 1000).files "l" =
      some (some { value := JSValue.num 9, expiresAt := 2000, createdAt := 0, key := "l" }) ∧
    (FileCache.get
        (FileCache.cleanExpiredItems
          { memoryCache := []
            files := [("e", some { value := JSValue.num 1, expiresAt := 500, createdAt := 0, key := "e" }),
                      ("c", none),
                      ("l", some { value := JSValue.num 9, expiresAt := 2000, createdAt := 0, key := "l" })]
            stats := { hits := 0, misses := 0, sets := 0 }
            maxMemoryItems := 10 } 1000) "l" 1000).2.stats.hits = 0 + 1 ∧
    (FileCache.get
        (FileCache.cleanExpiredItems
          { memoryCache := []
            files := [("e", some { value := JSValue.num 1, expiresAt := 500, createdAt := 0, key := "e" }),
                      ("c", none),
                      ("l", some { value := JSValue.num 9, expiresAt := 2000, createdAt := 0, key := "l" })]
            stats := { hits := 0, misses := 0, sets := 0 }
            maxMemoryItems := 10 } 1000) "l" 1000).1 = JSValue.num 9 :=
  ⟨(C6_sweep
      { memoryCache := []
        files := [("e", some { value := JSValue.num 1, expiresAt := 500, createdAt := 0, key := "e" }),
                  ("c", none),
                  ("l", some { value := JSValue.num 9, expiresAt := 2000, createdAt := 0, key := "l" })]
        stats := { hits := 0, misses := 0, sets := 0 }
        maxMemoryItems := 10 } 1000 "e" "l" (by decide)).1
      { value := JSValue.num 1, expiresAt := 500, createdAt := 0, key := "e" }
      (by decide) (by decide),
   (C6_sweep
      { memoryCache := []
        files := [("e", some { value := JSValue.num 1, expiresAt := 500, createdAt := 0, key := "e" }),
                  ("c", none),
                  ("l", some { value := JSValue.num 9, expiresAt := 2000, createdAt := 0, key := "l" })]
        stats := { hits := 0, misses := 0, sets := 0 }
        maxMemoryItems := 10 } 1000 "c" "l" (by decide)).2.1 (by decide),
   (C6_sweep
      { memoryCache := []
        files := [("e", some { value := JSValue.num 1, expiresAt := 500, createdAt := 0, key := "e" }),
                  ("c", none),
                  ("l", some { value := JSValue.num 9, expiresAt := 2000, createdAt := 0, key := "l" })]
        stats := { hits := 0, misses := 0, sets := 0 }
        maxMemoryItems := 10 } 1000 "l" "l" (by decide)).2.2.1
      { value := JSValue.num 9, expiresAt := 2000, createdAt := 0, key := "l" }
      (by decide) (by decide),
   ((C6_sweep
      { memoryCache := []
        files := [("e", some { value := JSValue.num 1, expiresAt := 500, createdAt := 0, key := "e" }),
                  ("c", none),
                  ("l", some { value := JSValue.num 9, expiresAt := 2000, createdAt := 0, key := "l" })]
        stats := { hits := 0, misses := 0, sets := 0 }
        maxMemoryItems := 10 } 1000 "l" "l" (by decide)).2.2.2
      { value := JSValue.num 9, expiresAt := 2000, createdAt := 0, key := "l" }
      (by decide) (by decide)).1,
   ((C6_sweep
      { memoryCache := []
        files := [("e", some { value := JSValue.num 1, expiresAt := 500, createdAt := 0, key := "e" }),
                  ("c", none),
                  ("l", some { value := JSValue.num 9, expiresAt := 2000, createdAt := 0, key := "l" })]
        stats := { hits := 0, misses := 0, sets := 0 }
        maxMemoryItems := 10 } 1000 "l" "l" (by decide)).2.2.2
      { value := JSValue.num 9, expiresAt := 2000, createdAt := 0, key := "l" }
      (by decide) (by decide)).2 (by decide)⟩

/-! ### The memory tier never outgrows the configured capacity -/

theorem condInsert_length_le (m : List (String × CacheItem)) (mx : Nat) (k : String)
    (it : CacheItem) (h : m.length ≤ mx) :
    (if m.length < mx then alistSet m k it else m).length ≤ mx := by
  by_cases hc : m.length < mx
  · simp only [hc, if_true]
    exact le_trans (alistSet_length_le m k it) (Nat.succ_le_of_lt hc)
  · simpa [hc] using h

theorem set_max (s : CacheState) (k : String) (v : JSValue) (ttl now : Nat) (w : Bool) :
    (FileCache.set s k v ttl now w).2.maxMemoryItems = s.maxMemoryItems := by
  cases w <;> simp [FileCache.set]

theorem getFile_max (s : CacheState) (k : String) (now : Nat) :
    (FileCache.getFile s k now).2.maxMemoryItems = s.maxMemoryItems := by
  cases hf : alistGet s.files (FileCache.generateCacheKey k) with
  | none => simp [FileCache.getFile, hf]
  | some fd =>
    cases fd with
    | none => simp [FileCache.getFile, hf]
    | some it =>
      by_cases hl : now < it.expiresAt <;> simp [FileCache.getFile, hf, hl]

theorem get_max (s : CacheState) (k : String) (now : Nat) :
    (FileCache.get s k now).2.maxMemoryItems = s.maxMemoryItems := by
  cases hm : alistGet s.memoryCache k with
  | none => simpa [FileCache.get, hm] using getFile_max s k now
  | some it =>
    by_cases hl : now < it.expiresAt
    · simp [FileCache.get, hm, hl]
    · simpa [FileCache.get, hm, hl] using
        getFile_max { s with memoryCache := alistDel s.memoryCache k } k now

theorem del_max (s : CacheState) (k : String) :
    (FileCache.del s k).2.maxMemoryItems = s.maxMemoryItems := rfl

theorem existsKey_max (s : CacheState) (k : String) (now : Nat) :
    (FileCache.existsKey s k now).2.maxMemoryItems = s.maxMemoryItems := get_max s k now

theorem expire_max (s : CacheState) (k : String) (secs now : Nat) (w : Bool) :
    (FileCache.expire s k secs now w).2.maxMemoryItems = s.maxMemoryItems := by
  simp only [FileCache.expire]
  by_cases hv : (FileCache.get s k now).1 ≠ JSValue.null
  · rw [if_pos hv, set_max, get_max]
  · rw [if_neg hv]
    exact get_max s k now

theorem mget_max : ∀ (keys : List String) (s : CacheState) (now : Nat),
    (FileCache.mget s keys now).2.maxMemoryItems = s.maxMemoryItems
  | [], _, _ => rfl
  | k :: rest, s, now => by
    simp only [FileCache.mget]
    rw [mget_max rest (FileCache.get s k now).2 now, get_max]

theorem setJS_max (s : CacheState) (key v : JSValue) (ttl now : Nat) (w : Bool) :
    (FileCache.setJS s key v ttl now w).2.maxMemoryItems = s.maxMemoryItems := by
  cases key <;> simp [FileCache.setJS, set_max]

theorem msetGo_max : ∀ (arr : List JSValue) (s : CacheState) (ttl now : Nat)
    (wok : List Bool),
    (FileCache.msetGo s arr ttl now wok).2.maxMemoryItems = s.maxMemoryItems
  | [], _, _, _, _ => rfl
  | [k], s, ttl, now, wok => by
    simp only [FileCache.msetGo]
    exact setJS_max s k JSValue.undef ttl now (wok.headD true)
  | k :: v :: rest, s, ttl, now, wok => by
    simp only [FileCache.msetGo]
    rw [msetGo_max rest (FileCache.setJS s k v ttl now (wok.headD true)).2 ttl now wok.tail,
      setJS_max]

theorem clean_max (s : CacheState) (now : Nat) :
    (FileCache.cleanExpiredItems s now).maxMemoryItems = s.maxMemoryItems := rfl

theorem execOp_max (s : CacheState) (op : Op) :
    (execOp s op).maxMemoryItems = s.maxMemoryItems := by
  cases op with
  | opSet k v ttl now w => exact set_max s k v ttl now w
  | opGet k now => exact get_max s k now
  | opDel k => exact del_max s k
  | opExists k now => exact existsKey_max s k now
  | opExpire k secs now w => exact expire_max s k secs now w
  | opMget keys now => exact mget_max keys s now
  | opMset arr ttl now wok => exact msetGo_max arr s ttl now wok
  | opClean now => exact clean_max s now
  | opFlushall => rfl

theorem execProg_max : ∀ (prog : List Op) (s : CacheState),
    (execProg s prog).maxMemoryItems = s.maxMemoryItems
  | [], _ => rfl
  | op :: rest, s => by
    simp only [execProg]
    rw [execProg_max rest (execOp s op), execOp_max]

theorem set_memLe (s : CacheState) (k : String) (v : JSValue) (ttl now : Nat) (w : Bool)
    (h : s.memoryCache.length ≤ s.maxMemoryItems) :
    (FileCache.set s k v ttl now w).2.memoryCache.length ≤
      (FileCache.set s k v ttl now w).2.maxMemoryItems := by
  cases w <;>
    simpa [FileCache.set] using condInsert_length_le s.memoryCache s.maxMemoryItems k
      { value := v, expiresAt := now + ttl * 1000, createdAt := now, key := k } h

theorem getFile_memLe (s : CacheState) (k : String) (now : Nat)
    (h : s.memoryCache.length ≤ s.maxMemoryItems) :
    (FileCache.getFile s k now).2.memoryCache.length ≤
      (FileCache.getFile s k now).2.maxMemoryItems := by
  cases hf : alistGet s.files (FileCache.generateCacheKey k) with
  | none => simpa [FileCache.getFile, hf] using h
  | some fd =>
    cases fd with
    | none => simpa [FileCache.getFile, hf] using h
    | some it =>
      by_cases hl : now < it.expiresAt
      · simpa [FileCache.getFile, hf, hl] using
          condInsert_length_le s.memoryCache s.maxMemoryItems k it h
      · simpa [FileCache.getFile, hf, hl] using h

theorem get_memLe (s : CacheState) (k : String) (now : Nat)
    (h : s.memoryCache.length ≤ s.maxMemoryItems) :
    (FileCache.get s k now).2.memoryCache.length ≤
      (FileCache.get s k now).2.maxMemoryItems := by
  cases hm : alistGet s.memoryCache k with
  | none => simpa [FileCache.get, hm] using getFile_memLe s k now h
  | some it =>
    by_cases hl : now < it.expiresAt
    · simpa [FileCache.get, hm, hl] using h
    · have h2 : (alistDel s.memoryCache k).length ≤ s.maxMemoryItems :=
        le_trans (alistDel_length_le s.memoryCache k) h
      simpa [FileCache.get, hm, hl] using
        getFile_memLe { s with memoryCache := alistDel s.memoryCache k } k now h2

theorem del_memLe (s : CacheState) (k : String)
    (h : s.memoryCache.length ≤ s.maxMemoryItems) :
    (FileCache.del s k).2.memoryCache.length ≤ (FileCache.del s k).2.maxMemoryItems := by
  simpa [FileCache.del] using le_trans (alistDel_length_le s.memoryCache k) h

theorem existsKey_memLe (s : CacheState) (k : String) (now : Nat)
    (h : s.memoryCache.length ≤ s.maxMemoryItems) :
    (FileCache.existsKey s k now).2.memoryCache.length ≤
      (FileCache.existsKey s k now).2.maxMemoryItems := get_memLe s k now h

theorem expire_memLe (s : CacheState) (k : String) (secs now : Nat) (w : Bool)
    (h : s.memoryCache.length ≤ s.maxMemoryItems) :
    (FileCache.expire s k secs now w).2.memoryCache.length ≤
      (FileCache.expire s k secs now w).2.maxMemoryItems := by
  have h1 := get_memLe s k now h
  simp only [FileCache.expire]
  by_cases hv : (FileCache.get s k now).1 ≠ JSValue.null
  · rw [if_pos hv]
    exact set_memLe (FileCache.get s k now).2 k (FileCache.get s k now).1 secs now w h1
  · rw [if_neg hv]
    exact h1

theorem mget_memLe : ∀ (keys : List String) (s : CacheState) (now : Nat),
    s.memoryCache.length ≤ s.maxMemoryItems →
    (FileCache.mget s keys now).2.memoryCache.length ≤
      (FileCache.mget s keys now).2.maxMemoryItems
  | [], _, _, h => h
  | k :: rest, s, now, h => by
    simp only [FileCache.mget]
    exact mget_memLe rest (FileCache.get s k now).2 now (get_memLe s k now h)

theorem setJS_memLe (s : CacheState) (key v : JSValue) (ttl now : Nat) (w : Bool)
    (h : s.memoryCache.length ≤ s.maxMemoryItems) :
    (FileCache.setJS s key v ttl now w).2.memoryCache.length ≤
      (FileCache.setJS s key v ttl now w).2.maxMemoryItems := by
  cases key with
  | str k => exact set_memLe s k v ttl now w h
  | null => exact h
  | undef => exact h
  | bool b => exact h
  | num n => exact h

theorem msetGo_memLe : ∀ (arr : List JSValue) (s : CacheState) (ttl now : Nat)
    (wok : List Bool),
    s.memoryCache.length ≤ s.maxMemoryItems →
    (FileCache.msetGo s arr ttl now wok).2.memoryCache.length ≤
      (FileCache.msetGo s arr ttl now wok).2.maxMemoryItems
  | [], _, _, _, _, h => h
  | [k], s, ttl, now, wok, h => by
    simp only [FileCache.msetGo]
    exact setJS_memLe s k JSValue.undef ttl now (wok.headD true) h
  | k :: v :: rest, s, ttl, now, wok, h => by
    simp only [FileCache.msetGo]
    exact msetGo_memLe rest (FileCache.setJS s k v ttl now (wok.headD true)).2 ttl now
      wok.tail (setJS_memLe s k v ttl now (wok.headD true) h)

theorem clean_memLe (s : CacheState) (now : Nat)
    (h : s.memoryCache.length ≤ s.maxMemoryItems) :
    (FileCache.cleanExpiredItems s now).memoryCache.length ≤
      (FileCache.cleanExpiredItems s now).maxMemoryItems := by
  simpa [FileCache.cleanExpiredItems] using
    le_trans (alistFilter_length_le _ s.memoryCache) h

theorem execOp_memLe (s : CacheState) (op : Op)
    (h : s.memoryCache.length ≤ s.maxMemoryItems) :
    (execOp s op).memoryCache.length ≤ (execOp s op).maxMemoryItems := by
  cases op with
  | opSet k v ttl now w => exact set_memLe s k v ttl now w h
  | opGet k now => exact get_memLe s k now h
  | opDel k => exact del_memLe s k h
  | opExists k now => exact existsKey_memLe s k now h
  | opExpire k secs now w => exact expire_memLe s k secs now w h
  | opMget keys now => exact mget_memLe keys s now h
  | opMset arr ttl now wok => exact msetGo_memLe arr s ttl now wok h
  | opClean now => exact clean_memLe s now h
  | opFlushall => exact Nat.zero_le _

theorem execProg_memLe : ∀ (prog : List Op) (s : CacheState),
    s.memoryCache.length ≤ s.maxMemoryItems →
    (execProg s prog).memoryCache.length ≤ (execProg s prog).maxMemoryItems
  | [], _, h => h
  | op :: rest, s, h => by
    simp only [execProg]
    exact execProg_memLe rest (execOp s op) (execOp_memLe s op h)

/-- C2, confirmed.  Along every operation history from a fresh cache,
`stats().memoryItems` never exceeds the configured `maxMemoryItems`, and
a key that is absent from the memory tier but has a live persisted record
is still served by `get` from the file tier (returning the record's value
and counting a hit). -/
theorem C2_capacityAdmission (prog : List Op) (mx now : Nat) (k : String) :
    (FileCache.stats (execProg (FileCache.initial mx) prog)).memoryItems ≤ mx ∧
    (∀ it : CacheItem,
      alistGet (execProg (FileCache.initial mx) prog).memoryCache k = none →
      alistGet (execProg (FileCache.initial mx) prog).files
          (FileCache.generateCacheKey k) = some (some it) →
      now < it.expiresAt →
      (FileCache.get (execProg (FileCache.initial mx) prog) k now).1 = it.value ∧
      (FileCache.get (execProg (FileCache.initial mx) prog) k now).2.stats.hits =
        (execProg (FileCache.initial mx) prog).stats.hits + 1) := by
  constructor
  · have h1 := execProg_memLe prog (FileCache.initial mx) (by simp [FileCache.initial])
    have h2 : (execProg (FileCache.initial mx) prog).maxMemoryItems = mx :=
      execProg_max prog (FileCache.initial mx)
    simp only [FileCache.stats]
    exact le_trans h1 (Nat.le_of_eq h2)
  · intro it h1 h2 h3
    exact get_fileHit (execProg (FileCache.initial mx) prog) k now it h1 h2 h3

/-- C2 witness: capacity 1, two distinct keys; the second key is refused
memory admission yet `get` still serves it from the file tier. -/
theorem C2_capacityAdmission_witness :
    (FileCache.stats (execProg (FileCache.initial 1)
        [Op.opSet "aa" (JSValue.num 1) 5 0 true,
         Op.opSet "bb" (JSValue.num 2) 5 0 true])).memoryItems ≤ 1 ∧
    ((FileCache.get (execProg (FileCache.initial 1)
        [Op.opSet "aa" (JSValue.num 1) 5 0 true,
         Op.opSet "bb" (JSValue.num 2) 5 0 true]) "bb" 0).1 = JSValue.num 2 ∧
      (FileCache.get (execProg (FileCache.initial 1)
        [Op.opSet "aa" (JSValue.num 1) 5 0 true,
         Op.opSet "bb" (JSValue.num 2) 5 0 true]) "bb" 0).2.stats.hits =
        (execProg (FileCache.initial 1)
          [Op.opSet "aa" (JSValue.num 1) 5 0 true,
           Op.opSet "bb" (JSValue.num 2) 5 0 true]).stats.hits + 1) :=
  ⟨(C2_capacityAdmission
      [Op.opSet "aa" (JSValue.num 1) 5 0 true, Op.opSet "bb" (JSValue.num 2) 5 0 true]
      1 0 "bb").1,
   (C2_capacityAdmission
      [Op.opSet "aa" (JSValue.num 1) 5 0 true, Op.opSet "bb" (JSValue.num 2) 5 0 true]
      1 0 "bb").2
     { value := JSValue.num 2, expiresAt := 5000, createdAt := 0, key := "bb" }
     (by decide) (by decide) (by decide)⟩

/-- C7, confirmed.  After any operation history producing `H` hits and
`Ms` misses, `stats().hitRate` is `H / (H + Ms)` (exact rational model of
the JS float division), and `0` when `H + Ms = 0`. -/
theorem C7_hitRate (prog : List Op) (mx : Nat) :
    ((execProg (FileCache.initial mx) prog).stats.hits +
        (execProg (FileCache.initial mx) prog).stats.misses = 0 →
      (FileCache.stats (execProg (FileCache.initial mx) prog)).hitRate = 0) ∧
    (0 < (execProg (FileCache.initial mx) prog).stats.hits +
        (execProg (FileCache.initial mx) prog).stats.misses →
      (FileCache.stats (execProg (FileCache.initial mx) prog)).hitRate =
        ((execProg (FileCache.initial mx) prog).stats.hits : ℚ) /
          (((execProg (FileCache.initial mx) prog).stats.hits : ℚ) +
            ((execProg (FileCache.initial mx) prog).stats.misses : ℚ))) := by
  constructor
  · intro h
    simp [FileCache.stats, FileCache.jsDivOr0, h]
  · intro h
    have hne : (execProg (FileCache.initial mx) prog).stats.hits +
        (execProg (FileCache.initial mx) prog).stats.misses ≠ 0 := by omega
    simp only [FileCache.stats, FileCache.jsDivOr0, hne, if_false]
    push_cast
    rfl

/-- C7 witness: one hit and one miss give a hit rate of one half. -/
theorem C7_hitRate_witness :
    0 < (execProg (FileCache.initial 10)
        [Op.opSet "a" (JSValue.num 1) 5 0 true, Op.opGet "a" 0, Op.opGet "b" 0]).stats.hits +
      (execProg (FileCache.initial 10)
        [Op.opSet "a" (JSValue.num 1) 5 0 true, Op.opGet "a" 0, Op.opGet "b" 0]).stats.misses ∧
    (FileCache.stats (execProg (FileCache.initial 10)
        [Op.opSet "a" (JSValue.num 1) 5 0 true, Op.opGet "a" 0, Op.opGet "b" 0])).hitRate =
      ((execProg (FileCache.initial 10)
          [Op.opSet "a" (JSValue.num 1) 5 0 true, Op.opGet "a" 0, Op.opGet "b" 0]).stats.hits : ℚ) /
        (((execProg (FileCache.initial 10)
            [Op.opSet "a" (JSValue.num 1) 5 0 true, Op.opGet "a" 0, Op.opGet "b" 0]).stats.hits : ℚ) +
          ((execProg (FileCache.initial 10)
            [Op.opSet "a" (JSValue.num 1) 5 0 true, Op.opGet "a" 0, Op.opGet "b" 0]).stats.misses : ℚ)) :=
  ⟨by decide,
   (C7_hitRate [Op.opSet "a" (JSValue.num 1) 5 0 true, Op.opGet "a" 0, Op.opGet "b" 0] 10).2
     (by decide)⟩

/-! ### Claim C4: the `mset` loop -/

theorem getD_zero_headD (w : List Bool) : w.getD 0 true = w.headD true := by
  cases w <;> rfl

theorem getD_succ_tail (w : List Bool) (i : Nat) :
    w.getD (i + 1) true = w.tail.getD i true := by
  cases w <;> rfl

theorem msetGo_pairs (ttl now : Nat) :
    ∀ (arr : List JSValue) (s : CacheState) (wok : List Bool),
    keysAreStrings arr →
    (FileCache.msetGo s arr ttl now wok).1 =
      ((List.range ((arr.length + 1) / 2)).map (fun i => wok.getD i true)).all id ∧
    (FileCache.msetGo s arr ttl now wok).2.stats.sets =
      s.stats.sets +
        ((List.range ((arr.length + 1) / 2)).map (fun i => wok.getD i true)).count true
  | [], s, wok, _ => by simp [FileCache.msetGo]
  | [k], s, wok, h => by
    obtain ⟨t, ht⟩ := h
    subst ht
    have hr1 : (([JSValue.str t] : List JSValue).length + 1) / 2 = 1 := by simp
    have hr2 : List.range 1 = [0] := rfl
    rw [hr1, hr2]
    simp only [List.map_cons, List.map_nil, List.all_cons, List.all_nil, List.count_cons,
      List.count_nil, id_eq, Bool.and_true]
    simp only [FileCache.msetGo, FileCache.setJS]
    rw [set_fst, set_sets_count, getD_zero_headD]
    cases hw : wok.headD true <;> simp
  | k :: v :: rest, s, wok, h => by
    obtain ⟨⟨t, ht⟩, hrest⟩ := h
    subst ht
    obtain ⟨ih1, ih2⟩ := msetGo_pairs ttl now rest
      (FileCache.set s t v ttl now (wok.headD true)).2 wok.tail hrest
    have harith : ((JSValue.str t :: v :: rest).length + 1) / 2 =
        (rest.length + 1) / 2 + 1 := by
      simp only [List.length_cons]
      omega
    have hfun : ((fun i => wok.getD i true) ∘ Nat.succ) =
        (fun i => wok.tail.getD i true) := by
      funext i
      simp only [Function.comp]
      exact getD_succ_tail wok i
    have hdec : ((List.range (((JSValue.str t :: v :: rest).length + 1) / 2)).map
          (fun i => wok.getD i true)) =
        wok.headD true ::
          ((List.range ((rest.length + 1) / 2)).map (fun i => wok.tail.getD i true)) := by
      rw [harith, List.range_succ_eq_map, List.map_cons, List.map_map, hfun, getD_zero_headD]
    rw [hdec]
    constructor
    · simp only [FileCache.msetGo, FileCache.setJS, List.all_cons, id_eq]
      rw [set_fst, ih1]
    · simp only [FileCache.msetGo, FileCache.setJS, List.count_cons]
      rw [ih2, set_sets_count]
      cases hw : wok.headD true <;> simp <;> omega

/-- C4, counterexample.  The loop `for (i = 0; i < n; i += 2)` runs
`ceil(n/2)` times, not `floor(n/2)`: on the odd-length input
`["a", 1, "b"]` the trailing element `"b"` is not ignored — a second
`set` call is made with key `"b"` and value `undefined` (the
out-of-bounds read `keyValuePairs[i + 1]`), so the set counter reaches 2
where the claim predicts `floor(3/2) = 1`, and a record for `"b"` is
persisted. -/
theorem C4_counterexample :
    (FileCache.mset (FileCache.initial 10)
        [JSValue.str "a", JSValue.num 1, JSValue.str "b"] 5 0 []).2.stats.sets = 2 ∧
    ([JSValue.str "a", JSValue.num 1, JSValue.str "b"].length : Nat) / 2 = 1 ∧
    alistGet (FileCache.mset (FileCache.initial 10)
        [JSValue.str "a", JSValue.num 1, JSValue.str "b"] 5 0 []).2.files "b" =
      some (some { value := JSValue.undef, expiresAt := 5000, createdAt := 0, key := "b" }) := by
  decide

/-- C4, amended.  `mset` performs exactly `ceil(n/2)` pairwise `set`
operations on a flat list of length `n`; for odd `n` the final iteration
uses the trailing element as key with value `undefined` rather than
skipping it.  The returned boolean is the conjunction of the per-call
results — true iff every one of those `ceil(n/2)` writes succeeded — and
the set counter grows by the number of successful writes.  (`wok` lists
each successive write's outcome, defaulting to success.) -/
theorem C4_msetPairs (s : CacheState) (arr : List JSValue) (ttl now : Nat)
    (wok : List Bool) (hstr : keysAreStrings arr) :
    (FileCache.mset s arr ttl now wok).1 =
      ((List.range ((arr.length + 1) / 2)).map (fun i => wok.getD i true)).all id ∧
    (FileCache.mset s arr ttl now wok).2.stats.sets =
      s.stats.sets +
        ((List.range ((arr.length + 1) / 2)).map (fun i => wok.getD i true)).count true :=
  msetGo_pairs ttl now arr s wok hstr

/-- C4 witness: on `["a", 1, "b"]` with the first write succeeding and
the second failing, `mset` returns false and the set counter grows by
one. -/
theorem C4_msetPairs_witness :
    (FileCache.mset (FileCache.initial 10)
        [JSValue.str "a", JSValue.num 1, JSValue.str "b"] 5 0 [true, false]).1 =
      ((List.range (([JSValue.str "a", JSValue.num 1, JSValue.str "b"].length + 1) / 2)).map
        (fun i => [true, false].getD i true)).all id ∧
    (FileCache.mset (FileCache.initial 10)
        [JSValue.str "a", JSValue.num 1, JSValue.str "b"] 5 0 [true, false]).2.stats.sets =
      (FileCache.initial 10).stats.sets +
        ((List.range (([JSValue.str "a", JSValue.num 1, JSValue.str "b"].length + 1) / 2)).map
          (fun i => [true, false].getD i true)).count true :=
  C4_msetPairs (FileCache.initial 10) [JSValue.str "a", JSValue.num 1, JSValue.str "b"]
    5 0 [true, false] ⟨⟨"a", rfl⟩, ⟨"b", rfl⟩⟩
